import Mathlib

/-
Verification of the church-website backend (Flask/SQLite CRUD application).
The definitions below are a shallow embedding of the Python source:
`src/backend/routes.py` (blueprint version) and
`src/church-backend-complete.py` (monolithic version).
Database tables are embedded as Lean lists of row structures, SQL statements
as the corresponding list operations, and HTTP responses as
(status code, payload) pairs.
-/

/-! ### Email validation (`validate_email`, routes.py lines 16-19)

The source checks `re.match(r'^[a-zA-Z0-9._%+-]+@[a-zA-Z0-9.-]+\.[a-zA-Z]\x7b2,\x7d', email)`,
a prefix match.  `matchEmail` below is an executable matcher for that regex;
`emailPattern` is the declarative existential semantics of the pattern, and the
equivalence of the two is proved as claim C8. -/

/-- Character class `[a-zA-Z0-9._%+-]` of the local part of the regex. -/
def isLocalChar (c : Char) : Bool :=
  c.isAlpha || c.isDigit || c = '.' || c = '_' || c = '%' || c = '+' || c = '-'

/-- Character class `[a-zA-Z0-9.-]` of the domain part of the regex. -/
def isDomainChar (c : Char) : Bool :=
  c.isAlpha || c.isDigit || c = '.' || c = '-'

/-- Matches `[a-zA-Z]\x7b2,\x7d` as a prefix: two letters suffice because the
overall match is a prefix match with an unconstrained tail. -/
def matchTld : List Char → Bool
  | a :: b :: _ => a.isAlpha && b.isAlpha
  | _ => false

/-- Matches `[a-zA-Z0-9.-]*\.[a-zA-Z]\x7b2,\x7d` as a prefix (the remaining domain
characters after the first one, then the literal dot, then the TLD). -/
def matchDotTld : List Char → Bool
  | [] => false
  | c :: rest => (decide (c = '.') && matchTld rest) || (isDomainChar c && matchDotTld rest)

/-- Matches `[a-zA-Z0-9.-]+\.[a-zA-Z]\x7b2,\x7d` as a prefix. -/
def matchDomainPart : List Char → Bool
  | [] => false
  | c :: rest => isDomainChar c && matchDotTld rest

/-- Matches the rest of `[a-zA-Z0-9._%+-]+@...` after the first local character:
further local characters until the `@`, then the domain part. -/
def matchLocalRest : List Char → Bool
  | [] => false
  | c :: rest => if c = '@' then matchDomainPart rest else isLocalChar c && matchLocalRest rest

/-- Executable prefix matcher for the whole email regex. -/
def matchEmail : List Char → Bool
  | [] => false
  | c :: rest => isLocalChar c && matchLocalRest rest

/-- `validate_email` from routes.py lines 16-19: true iff the regex matches a
prefix of the input. -/
def validate_email (email : String) : Bool :=
  matchEmail email.data

/-- Declarative semantics of the regex
`^[a-zA-Z0-9._%+-]+@[a-zA-Z0-9.-]+\.[a-zA-Z]\x7b2,\x7d` as a prefix match:
some prefix of the input decomposes into a nonempty local part, `@`, a
nonempty domain part, a literal dot and at least two letters. -/
def emailPattern (s : String) : Prop :=
  ∃ l d t rest, s.data = l ++ '@' :: (d ++ '.' :: (t ++ rest)) ∧
    l ≠ [] ∧ (∀ c ∈ l, isLocalChar c = true) ∧
    d ≠ [] ∧ (∀ c ∈ d, isDomainChar c = true) ∧
    2 ≤ t.length ∧ (∀ c ∈ t, c.isAlpha = true)

/-! ### Input sanitization (`sanitize_input`, routes.py lines 21-33)

The source is: `None` passes through; otherwise `re.sub('<.*?>', '', text)`
removes non-greedy tag substrings (Python `.` does not match a newline), then
five `str.replace` calls escape `&`, `<`, `>`, the double quote and the
apostrophe, in that order. -/

/-- The double-quote character (escaped by `sanitize_input` to `&quot;`). -/
def quoteChar : Char := Char.ofNat 34

/-- The apostrophe character (escaped by `sanitize_input` to the entity
ampersand-hash-x27-semicolon). -/
def apostChar : Char := Char.ofNat 39

/-- Scans for the closing `>` of a tag opened by `<`: the non-greedy `<.*?>`
consumes up to the first `>`, and fails if a newline intervenes (Python `.`
does not match a newline).  Returns the characters after that `>`. -/
def findTagClose : List Char → Option (List Char)
  | [] => none
  | c :: rest => if c = '>' then some rest else if c = '\n' then none else findTagClose rest

theorem findTagClose_length :
    ∀ cs rest', findTagClose cs = some rest' → rest'.length < cs.length := by
  intro cs
  induction cs with
  | nil => intro rest' h; simp [findTagClose] at h
  | cons c rest ih =>
    intro rest' h
    by_cases hgt : c = '>'
    · simp [findTagClose, hgt] at h
      subst h; simp
    · by_cases hnl : c = '\n'
      · simp [findTagClose, hgt, hnl] at h
      · simp [findTagClose, hgt, hnl] at h
        exact Nat.lt_trans (ih rest' h) (by simp)

/-- Worker for `stripTags`, structurally recursive on a fuel argument.  Every
recursive call strictly shortens the list (`findTagClose_length`), so fuel
equal to the input length never runs out. -/
def stripTagsFuel : Nat → List Char → List Char
  | 0, _ => []
  | _ + 1, [] => []
  | fuel + 1, c :: rest =>
    if c = '<' then
      match findTagClose rest with
      | some rest' => stripTagsFuel fuel rest'
      | none => c :: stripTagsFuel fuel rest
    else c :: stripTagsFuel fuel rest

/-- `re.sub('<.*?>', '', text)`: left-to-right scan deleting each non-greedy
tag match; a `<` with no closing `>` (before a newline or the end) is kept. -/
def stripTags (cs : List Char) : List Char :=
  stripTagsFuel cs.length cs

/-- `str.replace` specialised to a single-character needle: every occurrence of
`pat` is replaced by `rep`; the replacement text is not rescanned. -/
def replaceChar (pat : Char) (rep : List Char) : List Char → List Char
  | [] => []
  | c :: rest => if c = pat then rep ++ replaceChar pat rep rest else c :: replaceChar pat rep rest

/-- The entity `&amp;`. -/
def ampEntity : List Char := ['&', 'a', 'm', 'p', ';']

/-- The entity `&lt;`. -/
def ltEntity : List Char := ['&', 'l', 't', ';']

/-- The entity `&gt;`. -/
def gtEntity : List Char := ['&', 'g', 't', ';']

/-- The entity `&quot;`. -/
def quotEntity : List Char := ['&', 'q', 'u', 'o', 't', ';']

/-- The entity ampersand-hash-x27-semicolon for the apostrophe. -/
def apostEntity : List Char := ['&', '#', 'x', '2', '7', ';']

/-- The body of `sanitize_input` on an actual string: strip tags, then the
five escapes in source order. -/
def sanitizeChars (s : List Char) : List Char :=
  let clean := stripTags s
  let c1 := replaceChar '&' ampEntity clean
  let c2 := replaceChar '<' ltEntity c1
  let c3 := replaceChar '>' gtEntity c2
  let c4 := replaceChar quoteChar quotEntity c3
  replaceChar apostChar apostEntity c4

/-- `sanitize_input` from routes.py lines 21-33 (`None` passes through). -/
def sanitize_input : Option String → Option String
  | none => none
  | some s => some (String.mk (sanitizeChars s.data))

/-! ### Rate limiter (`rate_limit`, routes.py lines 35-70)

The store is the `rate_limits` table: rows `(ip_address, endpoint, timestamp)`.
Timestamps are embedded as integers (seconds).  The decorator body is:
if rate limiting is disabled, pass through; otherwise delete all rows with
`timestamp < now - period` (global sweep), count rows for this
`(ip, endpoint)` with `timestamp > now - period`, reject with 429 when the
count reaches the configured maximum, else insert `(ip, endpoint, now)` and
commit.  On the reject path the connection is closed without `commit()`, so
the uncommitted sweep is rolled back and the stored table is unchanged. -/

structure RLEntry where
  ip_address : String
  endpoint : String
  timestamp : Int
deriving DecidableEq, Repr

structure RateLimitConfig where
  RATE_LIMIT_ENABLED : Bool
  RATE_LIMIT_REQUESTS : Nat
  RATE_LIMIT_PERIOD : Int
deriving DecidableEq, Repr

inductive RLDecision where
  | allowed
  | rejected429
deriving DecidableEq, Repr

/-- `DELETE FROM rate_limits WHERE timestamp < cutoff` (keeps the other rows). -/
def deleteOldEntries (cutoff : Int) (store : List RLEntry) : List RLEntry :=
  store.filter (fun e => !(decide (e.timestamp < cutoff)))

/-- The rows counted by
`SELECT COUNT(*) FROM rate_limits WHERE ip_address = ? AND endpoint = ? AND timestamp > ?`. -/
def recentEntries (ip ep : String) (cutoff : Int) (store : List RLEntry) : List RLEntry :=
  store.filter (fun e => decide (e.ip_address = ip) && decide (e.endpoint = ep)
    && decide (cutoff < e.timestamp))

/-- The count used for the admission decision. -/
def countRecent (ip ep : String) (cutoff : Int) (store : List RLEntry) : Nat :=
  (recentEntries ip ep cutoff store).length

/-- The `rate_limit` decorator body (routes.py lines 39-68): returns the
admission decision and the committed state of the `rate_limits` table.  The
reject path returns the original store because the transaction is closed
without a commit. -/
def rate_limit (cfg : RateLimitConfig) (ip ep : String) (now : Int)
    (store : List RLEntry) : RLDecision × List RLEntry :=
  if !cfg.RATE_LIMIT_ENABLED then (.allowed, store)
  else
    let cutoff := now - cfg.RATE_LIMIT_PERIOD
    let cleaned := deleteOldEntries cutoff store
    let count := countRecent ip ep cutoff cleaned
    if cfg.RATE_LIMIT_REQUESTS ≤ count then (.rejected429, store)
    else (.allowed, cleaned ++ [⟨ip, ep, now⟩])

/-! ### Admin login

Blueprint version (routes.py lines 344-359): compares the submitted
credentials against `session.get('ADMIN_USERNAME')` and
`session.get('ADMIN_PASSWORD')`.  Monolithic version
(church-backend-complete.py lines 530-545): compares against
`app.config['ADMIN_USERNAME']` and `app.config['ADMIN_PASSWORD']`.
Sessions are embedded as the projection of the session dict to the keys the
code reads; `Option` models a missing key or missing JSON field (Python
`None`), and `Option.some` equality models the `==` on retrieved values. -/

structure BpSession where
  ADMIN_USERNAME : Option String
  ADMIN_PASSWORD : Option String
  is_admin : Option Bool
deriving DecidableEq, Repr

structure AppConfig where
  ADMIN_USERNAME : String
  ADMIN_PASSWORD : String
deriving DecidableEq, Repr

/-- The configuration defaults of config.py lines 24-25 (no environment
overrides). -/
def defaultConfig : AppConfig := ⟨"admin", "admin123"⟩

/-- `admin_login` from routes.py lines 344-359: compares against session
values and sets `session['is_admin'] = True` on success. -/
def admin_login_bp (sess : BpSession) (username password : Option String) :
    (Nat × String) × BpSession :=
  if username = sess.ADMIN_USERNAME ∧ password = sess.ADMIN_PASSWORD then
    ((200, "Login successful"), { sess with is_admin := some true })
  else
    ((401, "Invalid credentials"), sess)

/-- `admin_login` from church-backend-complete.py lines 530-545: compares
against the application configuration; returns the response and the session
`is_admin` value after the request. -/
def admin_login_mono (cfg : AppConfig) (isAdminBefore : Option Bool)
    (username password : Option String) : (Nat × String) × Option Bool :=
  if username = some cfg.ADMIN_USERNAME ∧ password = some cfg.ADMIN_PASSWORD then
    ((200, "Login successful"), some true)
  else
    ((401, "Invalid credentials"), isAdminBefore)

/-! ### Events (`handle_events` GET, routes.py lines 84-95;
`handle_event`, routes.py lines 125-169)

The `events` table is embedded as a list of rows.  SQLite compares the TEXT
date and time columns lexicographically, with NULL ordered before any text
and excluded by `date >= date("now")`. -/

structure EventRow where
  id : Nat
  title : Option String
  description : Option String
  date : Option String
  time : Option String
  location : Option String
  image_url : Option String
deriving DecidableEq, Repr

/-- The JSON body of a POST or PUT event request (fields read via
`data.get`, absent fields are `None`). -/
structure EventData where
  title : Option String
  description : Option String
  date : Option String
  time : Option String
  location : Option String
  image_url : Option String
deriving DecidableEq, Repr

inductive ApiResponse where
  | record (e : EventRow)
  | message (s : String)
  | error (s : String)
deriving DecidableEq, Repr

/-- SQLite ordering on a nullable TEXT column, strict: NULL sorts before any
text, texts compare lexicographically. -/
def optTextLTb : Option String → Option String → Bool
  | none, some _ => true
  | none, none => false
  | some _, none => false
  | some x, some y => decide (x < y)

/-- SQLite ordering on a nullable TEXT column, non-strict. -/
def optTextLEb : Option String → Option String → Bool
  | none, _ => true
  | some _, none => false
  | some x, some y => decide (x ≤ y)

/-- The `ORDER BY date, time` ordering on event rows. -/
def eventLE (a b : EventRow) : Prop :=
  optTextLTb a.date b.date = true ∨ (a.date = b.date ∧ optTextLEb a.time b.time = true)

instance : DecidableRel eventLE := fun a b =>
  inferInstanceAs (Decidable (_ ∨ _))

/-- The `WHERE date >= date("now")` filter (a NULL date fails the comparison). -/
def upcoming (today : String) (e : EventRow) : Bool :=
  match e.date with
  | none => false
  | some d => decide (today ≤ d)

/-- GET branch of `handle_events` (routes.py lines 84-95):
`SELECT * FROM events WHERE date >= date("now") ORDER BY date, time LIMIT 50`. -/
def handle_events_get (today : String) (events : List EventRow) :
    Nat × List EventRow :=
  (200, (List.insertionSort eventLE (events.filter (upcoming today))).take 50)

/-- `SELECT * FROM events WHERE id = ?` with `fetchone()`. -/
def findEvent (eid : Nat) (events : List EventRow) : Option EventRow :=
  events.find? (fun e => e.id == eid)

/-- GET branch of `handle_event` (routes.py lines 128-137). -/
def handle_event_get (eid : Nat) (events : List EventRow) : Nat × ApiResponse :=
  match findEvent eid events with
  | some e => (200, .record e)
  | none => (404, .error "Event not found")

/-- The SET clause of the PUT branch: every column is overwritten from the
request body, free-text fields through `sanitize_input`. -/
def applyUpdate (d : EventData) (e : EventRow) : EventRow :=
  { e with
    title := sanitize_input d.title
    description := sanitize_input d.description
    date := d.date
    time := sanitize_input d.time
    location := sanitize_input d.location
    image_url := sanitize_input d.image_url }

/-- PUT branch of `handle_event` (routes.py lines 139-156): admin gate, then
`UPDATE events SET ... WHERE id=?` (affecting zero rows when the id is
absent) and an unconditional success message. -/
def handle_event_put (isAdmin : Bool) (eid : Nat) (d : EventData)
    (events : List EventRow) : (Nat × ApiResponse) × List EventRow :=
  if !isAdmin then ((401, .error "Admin authentication required"), events)
  else
    ((200, .message "Event updated successfully"),
      events.map (fun e => if e.id == eid then applyUpdate d e else e))

/-- DELETE branch of `handle_event` (routes.py lines 158-169): admin gate,
then `DELETE FROM events WHERE id = ?` and an unconditional success message. -/
def handle_event_delete (isAdmin : Bool) (eid : Nat) (events : List EventRow) :
    (Nat × ApiResponse) × List EventRow :=
  if !isAdmin then ((401, .error "Admin authentication required"), events)
  else ((200, .message "Event deleted successfully"), events.filter (fun e => !(e.id == eid)))

/-! ### Newsletter (`handle_newsletter`, routes.py lines 313-342) -/

structure NewsletterRow where
  id : Nat
  email : String
  is_active : Bool
deriving DecidableEq, Repr

/-- `handle_newsletter` (routes.py lines 315-342): the email comes from
`data.get('email')` (`none` models an absent field, the empty string is the
other falsy value of `if not email`); `nextId` models the AUTOINCREMENT id
for a fresh insert.  Returns (status, message) and the new table state. -/
def handle_newsletter (email : Option String) (nextId : Nat)
    (table : List NewsletterRow) : (Nat × String) × List NewsletterRow :=
  match email with
  | none => ((400, "Valid email address is required"), table)
  | some em =>
    if em = "" || !validate_email em then
      ((400, "Valid email address is required"), table)
    else
      match table.find? (fun r => r.email == em) with
      | some row =>
        if row.is_active then
          ((200, "Email already subscribed"), table)
        else
          ((200, "Subscription reactivated successfully"),
            table.map (fun r => if r.email == em then { r with is_active := true } else r))
      | none =>
        ((201, "Successfully subscribed to newsletter"), table ++ [⟨nextId, em, true⟩])

/-! ### Claims C1, C2: admin login -/

/-- C1: the admin login operation is specified to set the session is_admin
flag iff the submitted username and password both equal the configured admin
credentials, and to answer 401 with the invalid-credentials error otherwise.
The blueprint version (routes.py line 352) compares against session values
instead of the configuration, a slip: at the concrete failing input of a
fresh session (no ADMIN_USERNAME or ADMIN_PASSWORD key) and a request body
without username or password, the submitted values differ from the
configured credentials, yet the code answers 200 and sets is_admin. -/
theorem C1_admin_login_config_bug :
    admin_login_bp ⟨none, none, none⟩ none none =
      ((200, "Login successful"), ⟨none, none, some true⟩) ∧
    (none : Option String) ≠ some defaultConfig.ADMIN_USERNAME ∧
    (none : Option String) ≠ some defaultConfig.ADMIN_PASSWORD := by
  refine ⟨by decide, by simp, by simp⟩

/-- C2: in the blueprint version, for every session state containing neither
the ADMIN_USERNAME nor the ADMIN_PASSWORD key, a login request omitting both
fields satisfies the equality check, sets is_admin to true and returns 200,
while any request supplying actual username and password strings (in
particular the configured admin credentials) fails with 401. -/
theorem C2_admin_login_session_compare (sess : BpSession)
    (hu : sess.ADMIN_USERNAME = none) (hp : sess.ADMIN_PASSWORD = none) :
    admin_login_bp sess none none =
      ((200, "Login successful"), { sess with is_admin := some true }) ∧
    ∀ u p : String, admin_login_bp sess (some u) (some p) =
      ((401, "Invalid credentials"), sess) := by
  constructor
  · simp [admin_login_bp, hu, hp]
  · intro u p
    simp [admin_login_bp, hu]

theorem C2_admin_login_session_compare_witness :
    admin_login_bp ⟨none, none, none⟩ none none =
      ((200, "Login successful"), ⟨none, none, some true⟩) ∧
    admin_login_bp ⟨none, none, none⟩ (some defaultConfig.ADMIN_USERNAME)
        (some defaultConfig.ADMIN_PASSWORD) =
      ((401, "Invalid credentials"), ⟨none, none, none⟩) := by
  have h := C2_admin_login_session_compare ⟨none, none, none⟩ rfl rfl
  exact ⟨h.1, h.2 defaultConfig.ADMIN_USERNAME defaultConfig.ADMIN_PASSWORD⟩

/-! ### Claim C9: sanitize_input is not idempotent -/

/-- C9: sanitize_input is not idempotent: on the witness input consisting of
a single ampersand, the first pass produces the amp entity and the second
pass escapes that entity's own ampersand again. -/
theorem C9_sanitize_input_not_idempotent :
    ∃ x : String, sanitize_input (sanitize_input (some x)) ≠ sanitize_input (some x) := by
  refine ⟨"&", ?_⟩
  decide

/-! ### Claims C3, C4: rate limiter -/

/-- Rows with a timestamp in the counting window survive the sweep, so the
count over the swept store equals the count over the original store. -/
theorem countRecent_deleteOld (ip ep : String) (cutoff : Int) (store : List RLEntry) :
    countRecent ip ep cutoff (deleteOldEntries cutoff store) =
      countRecent ip ep cutoff store := by
  unfold countRecent recentEntries deleteOldEntries
  rw [List.filter_filter]
  congr 1
  apply List.filter_congr
  intro e _
  by_cases h : cutoff < e.timestamp
  · simp [h, not_lt_of_lt h, le_of_lt h]
  · simp [h]

/-- C3: for every store state and every enabled invocation, if the number of
stored entries for this (client, endpoint) with timestamp strictly inside
the window is at least the configured maximum, the request is rejected with
429 and the store is unchanged (no entry written); otherwise the request is
allowed and the committed store is the swept store with exactly the one new
entry (client, endpoint, now) appended. -/
theorem C3_rate_limit_check_and_record (cfg : RateLimitConfig) (ip ep : String)
    (now : Int) (store : List RLEntry) (hen : cfg.RATE_LIMIT_ENABLED = true) :
    (cfg.RATE_LIMIT_REQUESTS ≤ countRecent ip ep (now - cfg.RATE_LIMIT_PERIOD) store →
      rate_limit cfg ip ep now store = (.rejected429, store)) ∧
    (countRecent ip ep (now - cfg.RATE_LIMIT_PERIOD) store < cfg.RATE_LIMIT_REQUESTS →
      rate_limit cfg ip ep now store =
        (.allowed, deleteOldEntries (now - cfg.RATE_LIMIT_PERIOD) store ++ [⟨ip, ep, now⟩])) := by
  have hc := countRecent_deleteOld ip ep (now - cfg.RATE_LIMIT_PERIOD) store
  constructor
  · intro hge
    simp [rate_limit, hen, hc, hge]
  · intro hlt
    simp [rate_limit, hen, hc, Nat.not_le.mpr hlt]

theorem C3_rate_limit_check_and_record_witness :
    rate_limit ⟨true, 1, 60⟩ "client" "contact" 100 [] =
      (.allowed, [⟨"client", "contact", 100⟩]) ∧
    rate_limit ⟨true, 1, 60⟩ "client" "contact" 100 [⟨"client", "contact", 90⟩] =
      (.rejected429, [⟨"client", "contact", 90⟩]) := by
  constructor
  · exact (C3_rate_limit_check_and_record ⟨true, 1, 60⟩ "client" "contact" 100 []
      rfl).2 (by decide)
  · exact (C3_rate_limit_check_and_record ⟨true, 1, 60⟩ "client" "contact" 100
      [⟨"client", "contact", 90⟩] rfl).1 (by decide)

/-- C4: a stored entry whose timestamp equals the cutoff (now minus the
window) exactly is kept by the strict-less deletion sweep, is still in the
store after the whole check, and is excluded by the strict-greater filter
whose count decides admission. -/
theorem C4_rate_limit_boundary (cfg : RateLimitConfig) (ip ep : String) (now : Int)
    (store : List RLEntry) (e : RLEntry) (hen : cfg.RATE_LIMIT_ENABLED = true)
    (hts : e.timestamp = now - cfg.RATE_LIMIT_PERIOD) (hmem : e ∈ store) :
    e ∈ deleteOldEntries (now - cfg.RATE_LIMIT_PERIOD) store ∧
    e ∈ (rate_limit cfg ip ep now store).2 ∧
    e ∉ recentEntries ip ep (now - cfg.RATE_LIMIT_PERIOD)
        (deleteOldEntries (now - cfg.RATE_LIMIT_PERIOD) store) := by
  have h1 : e ∈ deleteOldEntries (now - cfg.RATE_LIMIT_PERIOD) store := by
    unfold deleteOldEntries
    rw [List.mem_filter]
    exact ⟨hmem, by simp [hts]⟩
  refine ⟨h1, ?_, ?_⟩
  · by_cases hc : cfg.RATE_LIMIT_REQUESTS ≤ countRecent ip ep
        (now - cfg.RATE_LIMIT_PERIOD) (deleteOldEntries (now - cfg.RATE_LIMIT_PERIOD) store)
    · have hr : rate_limit cfg ip ep now store = (.rejected429, store) := by
        simp [rate_limit, hen, hc]
      rw [hr]
      exact hmem
    · have hr : rate_limit cfg ip ep now store =
          (.allowed, deleteOldEntries (now - cfg.RATE_LIMIT_PERIOD) store ++ [⟨ip, ep, now⟩]) := by
        simp [rate_limit, hen, hc]
      rw [hr]
      exact List.mem_append_left _ h1
  · intro hcon
    rw [recentEntries, List.mem_filter] at hcon
    have h2 := hcon.2
    simp [hts] at h2

theorem C4_rate_limit_boundary_witness :
    (⟨"client", "contact", 40⟩ : RLEntry) ∈
      deleteOldEntries 40 [⟨"client", "contact", 40⟩] ∧
    (⟨"client", "contact", 40⟩ : RLEntry) ∈
      (rate_limit ⟨true, 1, 60⟩ "client" "contact" 100 [⟨"client", "contact", 40⟩]).2 ∧
    (⟨"client", "contact", 40⟩ : RLEntry) ∉
      recentEntries "client" "contact" 40 (deleteOldEntries 40 [⟨"client", "contact", 40⟩]) := by
  have h := C4_rate_limit_boundary ⟨true, 1, 60⟩ "client" "contact" 100
    [⟨"client", "contact", 40⟩] ⟨"client", "contact", 40⟩ rfl (by decide) (by decide)
  simpa using h

/-! ### Claim C5: /events/\x7bid\x7d routes -/

/-- C5 counterexample: the claim says PUT and DELETE on an absent event id
return 404.  On the empty events table, id 1 is absent, yet the admin PUT
and DELETE branches run UPDATE/DELETE statements that affect zero rows and
answer 200 with their success message. -/
theorem C5_event_404_counterexample :
    findEvent 1 [] = none ∧
    (handle_event_put true 1 ⟨none, none, none, none, none, none⟩ []).1 =
      (200, .message "Event updated successfully") ∧
    (handle_event_delete true 1 []).1 =
      (200, .message "Event deleted successfully") :=
  ⟨rfl, rfl, rfl⟩

/-- C5 amended: for an absent event id, GET returns 404 with the not-found
error, while the admin PUT and DELETE branches return 200 with their
`\x7bmessage\x7d` payloads (they do not check existence); for a present id, GET
returns the record with 200. -/
theorem C5_event_routes_amended (eid : Nat) (events : List EventRow)
    (d : EventData) (e : EventRow) :
    (findEvent eid events = none →
      handle_event_get eid events = (404, .error "Event not found") ∧
      (handle_event_put true eid d events).1 =
        (200, .message "Event updated successfully") ∧
      (handle_event_delete true eid events).1 =
        (200, .message "Event deleted successfully")) ∧
    (findEvent eid events = some e →
      handle_event_get eid events = (200, .record e)) := by
  constructor
  · intro h
    exact ⟨by simp [handle_event_get, h], rfl, rfl⟩
  · intro h
    simp [handle_event_get, h]

theorem C5_event_routes_amended_witness :
    (handle_event_get 1 [] = (404, .error "Event not found") ∧
      (handle_event_put true 1 ⟨none, none, none, none, none, none⟩ []).1 =
        (200, .message "Event updated successfully") ∧
      (handle_event_delete true 1 []).1 =
        (200, .message "Event deleted successfully")) ∧
    handle_event_get 7 [⟨7, none, none, some "2030-01-01", none, none, none⟩] =
      (200, .record ⟨7, none, none, some "2030-01-01", none, none, none⟩) := by
  constructor
  · exact (C5_event_routes_amended 1 [] ⟨none, none, none, none, none, none⟩
      ⟨7, none, none, some "2030-01-01", none, none, none⟩).1 rfl
  · exact (C5_event_routes_amended 7 [⟨7, none, none, some "2030-01-01", none, none, none⟩]
      ⟨none, none, none, none, none, none⟩
      ⟨7, none, none, some "2030-01-01", none, none, none⟩).2 (by decide)

/-! ### Claim C6: newsletter subscribe -/

theorem find?_eq_some_split {α : Type} (p : α → Bool) :
    ∀ (l : List α) (a : α), l.find? p = some a →
      ∃ pre post, l = pre ++ a :: post ∧ (∀ b ∈ pre, p b = false) ∧ p a = true := by
  intro l
  induction l with
  | nil => intro a h; simp at h
  | cons c rest ih =>
    intro a h
    by_cases hc : p c = true
    · rw [List.find?_cons_of_pos _ hc] at h
      obtain rfl : c = a := by injection h
      exact ⟨[], rest, rfl, by simp, hc⟩
    · rw [List.find?_cons_of_neg _ hc] at h
      obtain ⟨pre, post, heq, hpre, hpa⟩ := ih a h
      refine ⟨c :: pre, post, by rw [heq]; rfl, ?_, hpa⟩
      intro b hb
      rcases List.mem_cons.mp hb with hb | hb
      · subst hb; exact Bool.eq_false_iff.mpr hc
      · exact hpre b hb

/-- The reactivation UPDATE touches exactly the row carrying the email when
every other row carries a different email. -/
theorem map_setActive_split (em : String) (pre post : List NewsletterRow)
    (row : NewsletterRow)
    (hpre : ∀ r ∈ pre, (r.email == em) = false)
    (hrow : (row.email == em) = true)
    (hpost : ∀ r ∈ post, r.email ≠ em) :
    (pre ++ row :: post).map
        (fun r => if r.email == em then { r with is_active := true } else r) =
      pre ++ { row with is_active := true } :: post := by
  rw [List.map_append, List.map_cons]
  congr 1
  · conv_rhs => rw [← List.map_id pre]
    apply List.map_congr_left
    intro r hr
    simp [hpre r hr]
  · rw [if_pos hrow]
    congr 1
    conv_rhs => rw [← List.map_id post]
    apply List.map_congr_left
    intro r hr
    simp [hpost r hr]

/-- C6: newsletter subscribe with a valid nonempty email, on a table whose
emails are unique (the column is UNIQUE): an existing active row gives 200
and an unchanged table, and repeating the request gives the same response
again; an existing inactive row gives 200 and sets is_active on exactly that
row; an absent email gives 201 and appends exactly one new active row. -/
theorem C6_newsletter_idempotent (em : String) (nextId : Nat)
    (table : List NewsletterRow)
    (hval : validate_email em = true) (hne : em ≠ "")
    (huniq : List.Pairwise (fun a b => a.email ≠ b.email) table) :
    (∀ row, table.find? (fun r => r.email == em) = some row → row.is_active = true →
      handle_newsletter (some em) nextId table =
        ((200, "Email already subscribed"), table) ∧
      handle_newsletter (some em) nextId (handle_newsletter (some em) nextId table).2 =
        ((200, "Email already subscribed"), table)) ∧
    (∀ row, table.find? (fun r => r.email == em) = some row → row.is_active = false →
      ∃ pre post, table = pre ++ row :: post ∧
        handle_newsletter (some em) nextId table =
          ((200, "Subscription reactivated successfully"),
            pre ++ { row with is_active := true } :: post)) ∧
    (table.find? (fun r => r.email == em) = none →
      handle_newsletter (some em) nextId table =
        ((201, "Successfully subscribed to newsletter"), table ++ [⟨nextId, em, true⟩])) := by
  refine ⟨?_, ?_, ?_⟩
  · intro row hfind hact
    have h1 : handle_newsletter (some em) nextId table =
        ((200, "Email already subscribed"), table) := by
      simp [handle_newsletter, hne, hval, hfind, hact]
    refine ⟨h1, ?_⟩
    rw [h1]
    exact h1
  · intro row hfind hact
    obtain ⟨pre, post, heq, hpre, hprow⟩ := find?_eq_some_split _ table row hfind
    refine ⟨pre, post, heq, ?_⟩
    have hpost : ∀ r ∈ post, r.email ≠ em := by
      rw [heq, List.pairwise_append] at huniq
      have h2 := (List.pairwise_cons.mp huniq.2.1).1
      intro r hr h5
      have h4 : row.email = em := by simpa using hprow
      exact h2 r hr (h4.trans h5.symm)
    have hcomp : handle_newsletter (some em) nextId table =
        ((200, "Subscription reactivated successfully"),
          table.map (fun r => if r.email == em then { r with is_active := true } else r)) := by
      simp [handle_newsletter, hne, hval, hfind, hact]
    rw [hcomp, heq, map_setActive_split em pre post row hpre hprow hpost]
  · intro hfind
    simp [handle_newsletter, hne, hval, hfind]

theorem C6_newsletter_idempotent_witness :
    handle_newsletter (some "a@b.co") 0 [] =
      ((201, "Successfully subscribed to newsletter"), [⟨0, "a@b.co", true⟩]) ∧
    handle_newsletter (some "a@b.co") 1 [⟨0, "a@b.co", true⟩] =
      ((200, "Email already subscribed"), [⟨0, "a@b.co", true⟩]) := by
  constructor
  · exact (C6_newsletter_idempotent "a@b.co" 0 [] (by decide) (by decide)
      (List.Pairwise.nil)).2.2 rfl
  · exact ((C6_newsletter_idempotent "a@b.co" 1 [⟨0, "a@b.co", true⟩] (by decide) (by decide)
      (List.pairwise_singleton _ _)).1 ⟨0, "a@b.co", true⟩ (by decide) rfl).1

/-! ### Claim C7: sanitize_input output -/

theorem replaceChar_self_not_mem (pat : Char) (rep : List Char) (h : pat ∉ rep) :
    ∀ xs, pat ∉ replaceChar pat rep xs := by
  intro xs
  induction xs with
  | nil => simp [replaceChar]
  | cons c rest ih =>
    by_cases hc : c = pat
    · simp only [replaceChar]
      rw [if_pos hc]
      intro hmem
      rcases List.mem_append.mp hmem with h1 | h1
      · exact h h1
      · exact ih h1
    · simp only [replaceChar]
      rw [if_neg hc]
      intro hmem
      rcases List.mem_cons.mp hmem with h1 | h1
      · exact hc h1.symm
      · exact ih h1

theorem replaceChar_not_mem (pat c : Char) (rep : List Char) (hrep : c ∉ rep) :
    ∀ xs, c ∉ xs → c ∉ replaceChar pat rep xs := by
  intro xs
  induction xs with
  | nil => intro _; simp [replaceChar]
  | cons x rest ih =>
    intro hxs
    have hx : c ≠ x := fun he => hxs (he ▸ List.mem_cons_self x rest)
    have hrest : c ∉ rest := fun he => hxs (List.mem_cons_of_mem x he)
    by_cases hpx : x = pat
    · simp only [replaceChar]
      rw [if_pos hpx]
      intro hmem
      rcases List.mem_append.mp hmem with h1 | h1
      · exact hrep h1
      · exact ih hrest h1
    · simp only [replaceChar]
      rw [if_neg hpx]
      intro hmem
      rcases List.mem_cons.mp hmem with h1 | h1
      · exact hx h1
      · exact ih hrest h1

/-- C7: sanitize_input passes None through unchanged, and on every string it
strips non-greedy tag matches and then applies the five escapes in source
order, so the output contains no literal `<`, `>`, double quote, or
apostrophe character. -/
theorem C7_sanitize_input_no_specials :
    sanitize_input none = none ∧
    ∀ s : String, ∃ t : String, sanitize_input (some s) = some t ∧
      (t.data.all (fun c =>
        !(decide (c = '<') || decide (c = '>') || decide (c = quoteChar)
          || decide (c = apostChar)))) = true := by
  refine ⟨rfl, ?_⟩
  intro s
  refine ⟨String.mk (sanitizeChars s.data), rfl, ?_⟩
  rw [List.all_eq_true]
  intro c hc
  have hc5 : c ∈ replaceChar apostChar apostEntity (replaceChar quoteChar quotEntity
      (replaceChar '>' gtEntity (replaceChar '<' ltEntity
        (replaceChar '&' ampEntity (stripTags s.data))))) := hc
  have hlt2 : '<' ∉ replaceChar '<' ltEntity
      (replaceChar '&' ampEntity (stripTags s.data)) :=
    replaceChar_self_not_mem '<' ltEntity (by decide) _
  have hlt3 : '<' ∉ replaceChar '>' gtEntity (replaceChar '<' ltEntity
      (replaceChar '&' ampEntity (stripTags s.data))) :=
    replaceChar_not_mem '>' '<' gtEntity (by decide) _ hlt2
  have hlt4 : '<' ∉ replaceChar quoteChar quotEntity (replaceChar '>' gtEntity
      (replaceChar '<' ltEntity (replaceChar '&' ampEntity (stripTags s.data)))) :=
    replaceChar_not_mem quoteChar '<' quotEntity (by decide) _ hlt3
  have hlt5 : '<' ∉ replaceChar apostChar apostEntity (replaceChar quoteChar quotEntity
      (replaceChar '>' gtEntity (replaceChar '<' ltEntity
        (replaceChar '&' ampEntity (stripTags s.data))))) :=
    replaceChar_not_mem apostChar '<' apostEntity (by decide) _ hlt4
  have hgt3 : '>' ∉ replaceChar '>' gtEntity (replaceChar '<' ltEntity
      (replaceChar '&' ampEntity (stripTags s.data))) :=
    replaceChar_self_not_mem '>' gtEntity (by decide) _
  have hgt4 : '>' ∉ replaceChar quoteChar quotEntity (replaceChar '>' gtEntity
      (replaceChar '<' ltEntity (replaceChar '&' ampEntity (stripTags s.data)))) :=
    replaceChar_not_mem quoteChar '>' quotEntity (by decide) _ hgt3
  have hgt5 : '>' ∉ replaceChar apostChar apostEntity (replaceChar quoteChar quotEntity
      (replaceChar '>' gtEntity (replaceChar '<' ltEntity
        (replaceChar '&' ampEntity (stripTags s.data))))) :=
    replaceChar_not_mem apostChar '>' apostEntity (by decide) _ hgt4
  have hq4 : quoteChar ∉ replaceChar quoteChar quotEntity (replaceChar '>' gtEntity
      (replaceChar '<' ltEntity (replaceChar '&' ampEntity (stripTags s.data)))) :=
    replaceChar_self_not_mem quoteChar quotEntity (by decide) _
  have hq5 : quoteChar ∉ replaceChar apostChar apostEntity (replaceChar quoteChar quotEntity
      (replaceChar '>' gtEntity (replaceChar '<' ltEntity
        (replaceChar '&' ampEntity (stripTags s.data))))) :=
    replaceChar_not_mem apostChar quoteChar apostEntity (by decide) _ hq4
  have ha5 : apostChar ∉ replaceChar apostChar apostEntity (replaceChar quoteChar quotEntity
      (replaceChar '>' gtEntity (replaceChar '<' ltEntity
        (replaceChar '&' ampEntity (stripTags s.data))))) :=
    replaceChar_self_not_mem apostChar apostEntity (by decide) _
  have h1 : c ≠ '<' := fun he => hlt5 (he ▸ hc5)
  have h2 : c ≠ '>' := fun he => hgt5 (he ▸ hc5)
  have h3 : c ≠ quoteChar := fun he => hq5 (he ▸ hc5)
  have h4 : c ≠ apostChar := fun he => ha5 (he ▸ hc5)
  simp [h1, h2, h3, h4]

/-! ### Claim C8: validate_email -/

theorem matchTld_iff (cs : List Char) :
    matchTld cs = true ↔
      ∃ a b rest, cs = a :: b :: rest ∧ a.isAlpha = true ∧ b.isAlpha = true := by
  cases cs with
  | nil => simp [matchTld]
  | cons a tail =>
    cases tail with
    | nil => simp [matchTld]
    | cons b rest =>
      simp only [matchTld, Bool.and_eq_true]
      constructor
      · rintro ⟨ha, hb⟩
        exact ⟨a, b, rest, rfl, ha, hb⟩
      · rintro ⟨a', b', rest', heq, ha, hb⟩
        obtain ⟨h1, h2⟩ : a = a' ∧ b :: rest = b' :: rest' := by
          injection heq with h1 h2
          exact ⟨h1, h2⟩
        obtain ⟨h3, _⟩ : b = b' ∧ rest = rest' := by
          injection h2 with h3 h4
          exact ⟨h3, h4⟩
        rw [h1, h3]
        exact ⟨ha, hb⟩

theorem matchDotTld_exists : ∀ cs, matchDotTld cs = true →
    ∃ d rest, cs = d ++ '.' :: rest ∧ (∀ c ∈ d, isDomainChar c = true) ∧
      matchTld rest = true := by
  intro cs
  induction cs with
  | nil => intro h; simp [matchDotTld] at h
  | cons c rest ih =>
    intro h
    simp only [matchDotTld, Bool.or_eq_true, Bool.and_eq_true, decide_eq_true_eq] at h
    rcases h with ⟨hdot, htld⟩ | ⟨hdom, hrec⟩
    · exact ⟨[], rest, by rw [hdot]; rfl, by simp, htld⟩
    · obtain ⟨d, r, heq, hd, ht⟩ := ih hrec
      refine ⟨c :: d, r, by rw [heq]; rfl, ?_, ht⟩
      intro x hx
      rcases List.mem_cons.mp hx with rfl | hx
      · exact hdom
      · exact hd x hx

theorem matchDotTld_of (d rest : List Char)
    (hd : ∀ c ∈ d, isDomainChar c = true) (ht : matchTld rest = true) :
    matchDotTld (d ++ '.' :: rest) = true := by
  induction d with
  | nil => simp [matchDotTld, ht]
  | cons c d' ih =>
    have hc := hd c (List.mem_cons_self c d')
    have ih' := ih (fun x hx => hd x (List.mem_cons_of_mem c hx))
    simp [matchDotTld, hc, ih']

theorem matchDomainPart_iff (cs : List Char) :
    matchDomainPart cs = true ↔
      ∃ d rest, cs = d ++ '.' :: rest ∧ d ≠ [] ∧ (∀ c ∈ d, isDomainChar c = true) ∧
        matchTld rest = true := by
  constructor
  · intro h
    cases cs with
    | nil => simp [matchDomainPart] at h
    | cons c rest0 =>
      simp only [matchDomainPart, Bool.and_eq_true] at h
      obtain ⟨d', r, heq, hd, ht⟩ := matchDotTld_exists rest0 h.2
      refine ⟨c :: d', r, by rw [heq]; rfl, by simp, ?_, ht⟩
      intro x hx
      rcases List.mem_cons.mp hx with rfl | hx
      · exact h.1
      · exact hd x hx
  · rintro ⟨d, rest, heq, hne, hd, ht⟩
    subst heq
    cases d with
    | nil => exact absurd rfl hne
    | cons c d' =>
      show matchDomainPart (c :: (d' ++ '.' :: rest)) = true
      simp only [matchDomainPart, Bool.and_eq_true]
      exact ⟨hd c (List.mem_cons_self c d'),
        matchDotTld_of d' rest (fun x hx => hd x (List.mem_cons_of_mem c hx)) ht⟩

theorem matchLocalRest_exists : ∀ cs, matchLocalRest cs = true →
    ∃ l rest, cs = l ++ '@' :: rest ∧ (∀ c ∈ l, isLocalChar c = true) ∧
      matchDomainPart rest = true := by
  intro cs
  induction cs with
  | nil => intro h; simp [matchLocalRest] at h
  | cons c rest ih =>
    intro h
    by_cases hc : c = '@'
    · simp only [matchLocalRest] at h
      rw [if_pos hc] at h
      exact ⟨[], rest, by rw [hc]; rfl, by simp, h⟩
    · simp only [matchLocalRest] at h
      rw [if_neg hc] at h
      rw [Bool.and_eq_true] at h
      obtain ⟨hl, hrec⟩ := h
      obtain ⟨l, r, heq, hlc, hdp⟩ := ih hrec
      refine ⟨c :: l, r, by rw [heq]; rfl, ?_, hdp⟩
      intro x hx
      rcases List.mem_cons.mp hx with rfl | hx
      · exact hl
      · exact hlc x hx

theorem matchLocalRest_of (l rest : List Char)
    (hl : ∀ c ∈ l, isLocalChar c = true) (hd : matchDomainPart rest = true) :
    matchLocalRest (l ++ '@' :: rest) = true := by
  induction l with
  | nil => simp [matchLocalRest, hd]
  | cons c l' ih =>
    have hc := hl c (List.mem_cons_self c l')
    have hne : c ≠ '@' := by
      intro he
      rw [he] at hc
      exact absurd hc (by decide)
    have ih' := ih (fun x hx => hl x (List.mem_cons_of_mem c hx))
    simp [matchLocalRest, hne, hc, ih']

/-- C8: validate_email returns true iff a prefix of the input matches the
declarative semantics of the regex (so trailing characters after a valid TLD
are accepted); in particular it returns false for every string with no at
sign and for every string in which no dot is followed by two letters. -/
theorem C8_validate_email_pattern (s : String) :
    (validate_email s = true ↔ emailPattern s) ∧
    ('@' ∉ s.data → validate_email s = false) ∧
    ((∀ u v (a b : Char), s.data = u ++ '.' :: a :: b :: v →
        ¬(a.isAlpha = true ∧ b.isAlpha = true)) → validate_email s = false) := by
  have hiff : validate_email s = true ↔ emailPattern s := by
    constructor
    · intro h
      unfold validate_email at h
      cases hs : s.data with
      | nil => rw [hs] at h; simp [matchEmail] at h
      | cons c rest =>
        rw [hs] at h
        simp only [matchEmail, Bool.and_eq_true] at h
        obtain ⟨l, rest1, heq1, hl, hdp⟩ := matchLocalRest_exists rest h.2
        rw [matchDomainPart_iff] at hdp
        obtain ⟨d, rest2, heq2, hdne, hd, ht⟩ := hdp
        rw [matchTld_iff] at ht
        obtain ⟨a, b, rest3, heq3, ha, hb⟩ := ht
        refine ⟨c :: l, d, [a, b], rest3, ?_, by simp, ?_, hdne, hd, by simp, ?_⟩
        · rw [hs, heq1, heq2, heq3]
          rfl
        · intro x hx
          rcases List.mem_cons.mp hx with rfl | hx
          · exact h.1
          · exact hl x hx
        · intro x hx
          rcases List.mem_cons.mp hx with rfl | hx
          · exact ha
          · rcases List.mem_cons.mp hx with rfl | hx
            · exact hb
            · exact absurd hx (List.not_mem_nil x)
    · rintro ⟨l, d, t, rest, heq, hlne, hl, hdne, hd, htlen, hta⟩
      unfold validate_email
      rw [heq]
      cases l with
      | nil => exact absurd rfl hlne
      | cons c l' =>
        show matchEmail (c :: (l' ++ '@' :: (d ++ '.' :: (t ++ rest)))) = true
        simp only [matchEmail, Bool.and_eq_true]
        refine ⟨hl c (List.mem_cons_self c l'), ?_⟩
        apply matchLocalRest_of
        · intro x hx
          exact hl x (List.mem_cons_of_mem c hx)
        · rw [matchDomainPart_iff]
          refine ⟨d, t ++ rest, rfl, hdne, hd, ?_⟩
          cases t with
          | nil => simp at htlen
          | cons a t1 =>
            cases t1 with
            | nil => simp at htlen
            | cons b t2 =>
              show matchTld (a :: b :: (t2 ++ rest)) = true
              simp only [matchTld, Bool.and_eq_true]
              exact ⟨hta a (by simp), hta b (by simp)⟩
  refine ⟨hiff, ?_, ?_⟩
  · intro hat
    by_contra hne
    rw [Bool.not_eq_false] at hne
    obtain ⟨l, d, t, rest, heq, _⟩ := hiff.mp hne
    apply hat
    rw [heq]
    exact List.mem_append_right _ (List.mem_cons_self _ _)
  · intro hdot
    by_contra hne
    rw [Bool.not_eq_false] at hne
    obtain ⟨l, d, t, rest, heq, hlne, hl, hdne, hd, htlen, hta⟩ := hiff.mp hne
    cases t with
    | nil => simp at htlen
    | cons a t1 =>
      cases t1 with
      | nil => simp at htlen
      | cons b t2 =>
        refine hdot (l ++ '@' :: d) (t2 ++ rest) a b ?_ ⟨hta a (by simp), hta b (by simp)⟩
        rw [heq]
        simp

theorem C8_validate_email_pattern_witness :
    validate_email "abc" = false ∧ validate_email "a@bc" = false := by
  constructor
  · exact (C8_validate_email_pattern "abc").2.1 (by decide)
  · refine (C8_validate_email_pattern "a@bc").2.2 ?_
    intro u v a b h _
    have hdotmem : '.' ∈ "a@bc".data := by
      rw [h]
      exact List.mem_append_right _ (List.mem_cons_self _ _)
    exact absurd hdotmem (by decide)

/-! ### Claim C10: events listing -/

theorem optTextLTb_trans : ∀ (a b c : Option String),
    optTextLTb a b = true → optTextLTb b c = true → optTextLTb a c = true
  | none, none, _, h1, _ => by simp [optTextLTb] at h1
  | some _, none, _, h1, _ => by simp [optTextLTb] at h1
  | none, some _, none, _, h2 => by simp [optTextLTb] at h2
  | some _, some _, none, _, h2 => by simp [optTextLTb] at h2
  | none, some _, some _, _, _ => rfl
  | some x, some y, some z, h1, h2 => by
    simp only [optTextLTb, decide_eq_true_eq] at h1 h2 ⊢
    exact lt_trans h1 h2

theorem optTextLEb_trans : ∀ (a b c : Option String),
    optTextLEb a b = true → optTextLEb b c = true → optTextLEb a c = true
  | none, _, _, _, _ => rfl
  | some _, none, _, h1, _ => by simp [optTextLEb] at h1
  | some _, some _, none, _, h2 => by simp [optTextLEb] at h2
  | some x, some y, some z, h1, h2 => by
    simp only [optTextLEb, decide_eq_true_eq] at h1 h2 ⊢
    exact le_trans h1 h2

theorem optTextLEb_total : ∀ (a b : Option String),
    optTextLEb a b = true ∨ optTextLEb b a = true
  | none, _ => Or.inl rfl
  | some _, none => Or.inr rfl
  | some x, some y => by
    simp only [optTextLEb, decide_eq_true_eq]
    exact le_total x y

theorem optTextLTb_trichotomy : ∀ (a b : Option String),
    optTextLTb a b = true ∨ a = b ∨ optTextLTb b a = true
  | none, none => Or.inr (Or.inl rfl)
  | none, some _ => Or.inl rfl
  | some _, none => Or.inr (Or.inr rfl)
  | some x, some y => by
    simp only [optTextLTb, decide_eq_true_eq, Option.some.injEq]
    exact lt_trichotomy x y

instance : IsTrans EventRow eventLE := ⟨by
  intro a b c hab hbc
  rcases hab with h1 | ⟨h1, h1t⟩ <;> rcases hbc with h2 | ⟨h2, h2t⟩
  · exact Or.inl (optTextLTb_trans _ _ _ h1 h2)
  · left
    rw [← h2]
    exact h1
  · left
    rw [h1]
    exact h2
  · exact Or.inr ⟨h1.trans h2, optTextLEb_trans _ _ _ h1t h2t⟩⟩

instance : IsTotal EventRow eventLE := ⟨by
  intro a b
  rcases optTextLTb_trichotomy a.date b.date with h | h | h
  · exact Or.inl (Or.inl h)
  · rcases optTextLEb_total a.time b.time with ht | ht
    · exact Or.inl (Or.inr ⟨h, ht⟩)
    · exact Or.inr (Or.inr ⟨h.symm, ht⟩)
  · exact Or.inr (Or.inl h)⟩

/-- C10: the events listing returns only rows whose date is at least the
current date, sorted ascending by (date, time) in the SQLite text ordering,
and returns at most 50 rows. -/
theorem C10_events_listing (today : String) (events : List EventRow) :
    ((handle_events_get today events).2.all (upcoming today)) = true ∧
    List.Sorted eventLE (handle_events_get today events).2 ∧
    (handle_events_get today events).2.length ≤ 50 := by
  refine ⟨?_, ?_, ?_⟩
  · rw [List.all_eq_true]
    intro e he
    have h1 : e ∈ List.insertionSort eventLE (events.filter (upcoming today)) :=
      List.take_subset _ _ he
    have h2 : e ∈ events.filter (upcoming today) := by
      rw [List.mem_insertionSort] at h1
      exact h1
    exact (List.mem_filter.mp h2).2
  · exact List.Pairwise.sublist (List.take_sublist _ _)
      (List.sorted_insertionSort eventLE _)
  · exact List.length_take_le _ _
